import Mathlib

/-
Verification of the YTelegraph Markdown-to-Telegraph-DOM projection engine
(ytelegraph/md_to_dom.py) and of two request builders of the HTTP layer
(ytelegraph/api.py). The projection engine is embedded as a pure function
over the mistletoe token kinds that TelegraphDomRenderer handles; Python
values (strings, lists, element dicts) are embedded as the type Val.
-/

namespace YTelegraph

/-- Python value produced by the renderer: a text leaf, a plain list, or an
element dict with a tag, an optional attrs mapping and an optional children
list. Attribute values are again values, since render_image stores the list
of rendered children under the alt key. -/
inductive Val where
  | str (s : String)
  | vlist (xs : List Val)
  | elem (tag : String) (attrs : Option (List (String × Val))) (children : Option (List Val))

/-- Generic mistletoe AST token, restricted to the kinds the renderer
dispatches on. Optional titles of images and links are strings with the
empty string for absence, matching mistletoe, and a missing list start is
modelled by Option. The unknown constructor stands for any token kind with
no specific rule. -/
inductive Token where
  | document (cs : List Token)
  | paragraph (cs : List Token)
  | heading (level : Nat) (cs : List Token)
  | list (start : Option Int) (cs : List Token)
  | listItem (cs : List Token)
  | strong (cs : List Token)
  | emphasis (cs : List Token)
  | inlineCode (cs : List Token) (content : String)
  | strikethrough (cs : List Token)
  | image (src : String) (title : String) (cs : List Token)
  | link (target : String) (title : String) (cs : List Token)
  | autoLink (target : String)
  | rawText (content : String)
  | lineBreak (soft : Bool)
  | blockCode (language : String) (content : String)
  | quote (cs : List Token)
  | thematicBreak
  | htmlBlock (content : String)
  | htmlSpan (content : String)
  | unknown (cs : List Token)

/-- Content attribute of a token, as read by render_inline_code from its
first child; tokens without a content attribute yield the empty string. -/
def tokenContent : Token → String
  | .rawText s => s
  | .htmlBlock s => s
  | .htmlSpan s => s
  | .inlineCode _ s => s
  | .blockCode _ s => s
  | _ => ""

mutual

/-- Embedding of TelegraphDomRenderer.render: one rule per token kind,
translated clause by clause from md_to_dom.py. The unknown clause is
modelled from the spec: the upstream mistletoe BaseRenderer is not part of
this repository, and the spec states that node kinds without a specific
rewrite rule fall back to rendering their flattened children. -/
def render : Token → Val
  | .document cs => .vlist (renderList cs)
  | .paragraph cs => .elem "p" none (some (renderInner cs))
  | .heading level cs =>
      if level = 1 then .elem "h3" none (some (renderInner cs))
      else if level = 2 then .elem "h4" none (some (renderInner cs))
      else .elem "p" none (some [.elem "strong" none (some (renderInner cs))])
  | .list start cs =>
      .elem (if start.isSome then "ol" else "ul") none (some (renderList cs))
  | .listItem cs => .elem "li" none (some (renderInner cs))
  | .strong cs => .elem "strong" none (some (renderInner cs))
  | .emphasis cs => .elem "em" none (some (renderInner cs))
  | .inlineCode cs content =>
      .elem "code" none
        (some [.str (match cs.head? with
          | some c => tokenContent c
          | none => content)])
  | .strikethrough cs => .elem "del" none (some (renderInner cs))
  | .image src title cs =>
      .elem "img"
        (some ([("src", Val.str src)]
          ++ (if (renderInner cs).isEmpty then [] else [("alt", Val.vlist (renderInner cs))])
          ++ (if title = "" then [] else [("title", Val.str title)])))
        none
  | .link target title cs =>
      .elem "a"
        (some ([("href", Val.str target)]
          ++ (if title = "" then [] else [("title", Val.str title)])))
        (some (renderInner cs))
  | .autoLink target => .elem "a" (some [("href", Val.str target)]) (some [.str target])
  | .rawText s => .str s
  | .lineBreak soft => if soft then .str "\n" else .elem "br" none none
  | .blockCode language content =>
      .elem "pre" none (some
        [.elem "code"
          (if language = "" then none
           else some [("class", Val.str ("language-" ++ language))])
          (some [.str content])])
  | .quote cs => .elem "blockquote" none (some (renderInner cs))
  | .thematicBreak => .elem "hr" none none
  | .htmlBlock s => .str s
  | .htmlSpan s => .str s
  | .unknown cs => .vlist (renderInner cs)

/-- Embedding of the list comprehension of render_document and render_list:
each child is rendered and the results are collected without any flattening
or filtering. -/
def renderList : List Token → List Val
  | [] => []
  | c :: rest => render c :: renderList rest

/-- Embedding of TelegraphDomRenderer.render_inner: each rendered child that
is itself a list is spliced in place, every other result is appended as a
single item. -/
def renderInner : List Token → List Val
  | [] => []
  | c :: rest =>
      (match render c with
        | .vlist xs => xs
        | v => [v]) ++ renderInner rest

end

/-- Embedding of md_to_dom after the external mistletoe parse: applied to
the children of the parsed Document token it returns the list produced by
render_document. -/
def md_to_dom (docChildren : List Token) : List Val :=
  renderList docChildren

/-- Tag whitelist of the Telegraph platform as stated by the spec. -/
def ALLOWED_TAGS : List String :=
  ["a", "aside", "b", "blockquote", "br", "code", "em", "figcaption", "figure",
   "h3", "h4", "hr", "i", "iframe", "img", "li", "ol", "p", "pre", "s",
   "strong", "u", "ul", "video"]

mutual

/-- Checks that every element anywhere in a value, including elements stored
inside attribute values, carries a whitelisted tag. -/
def tagsAllowed : Val → Bool
  | .str _ => true
  | .vlist xs => tagsAllowedList xs
  | .elem tag attrs children =>
      ALLOWED_TAGS.contains tag
      && (match attrs with
          | none => true
          | some as => tagsAllowedAttrs as)
      && (match children with
          | none => true
          | some cs => tagsAllowedList cs)

/-- Whitelist check over a list of values. -/
def tagsAllowedList : List Val → Bool
  | [] => true
  | v :: vs => tagsAllowed v && tagsAllowedList vs

/-- Whitelist check over an attribute mapping. -/
def tagsAllowedAttrs : List (String × Val) → Bool
  | [] => true
  | (_, v) :: as => tagsAllowed v && tagsAllowedAttrs as

end

/-- Splicing step applied by render_inner to one rendered child. -/
def splice : Val → List Val
  | .vlist xs => xs
  | .str s => [.str s]
  | .elem tag attrs children => [.elem tag attrs children]

/-- Checks that a string consists only of whitespace characters. -/
def whitespaceOnly (s : String) : Bool :=
  s.toList.all Char.isWhitespace

/-- Value of a field in a request data dict sent to the Telegraph API. -/
inductive ReqVal where
  | str (s : String)
  | int (n : Int)
deriving DecidableEq

/-- Embedding of the data dict built by TelegraphAPI.get_page_list: the
limit field is clamped into the interval from 1 to 200, the offset field is
passed through unchanged. -/
def get_page_list_data (access_token : String) (offset limit : Int) :
    List (String × ReqVal) :=
  [("access_token", ReqVal.str access_token),
   ("offset", ReqVal.int offset),
   ("limit", ReqVal.int (max 1 (min 200 limit)))]

/-- Python truthiness of an optional integer argument: None and 0 are falsy. -/
def truthy : Option Int → Bool
  | none => false
  | some n => n != 0

/-- Embedding of the data dict built by TelegraphAPI.get_views after path
extraction: each date component is added only when it and every coarser
component are truthy. -/
def get_views_data (path : String) (year month day hour : Option Int) :
    List (String × ReqVal) :=
  [("path", ReqVal.str path)]
  ++ (if truthy year then [("year", ReqVal.int (year.getD 0))] else [])
  ++ (if truthy month && truthy year then [("month", ReqVal.int (month.getD 0))] else [])
  ++ (if truthy day && truthy month && truthy year then
        [("day", ReqVal.int (day.getD 0))] else [])
  ++ (if truthy hour && truthy day && truthy month && truthy year then
        [("hour", ReqVal.int (hour.getD 0))] else [])

example : render Token.thematicBreak = Val.elem "hr" none none := rfl

example : md_to_dom [Token.paragraph [Token.rawText "hi"]]
    = [Val.elem "p" none (some [Val.str "hi"])] := rfl



/-- C1: the whitelist-closure claim fails on the code. Rendering the
Markdown input with strikethrough (AST of tilde-wrapped text) emits a del
element, and del is not a member of ALLOWED_TAGS, so the output violates
the whitelist closure at depth one. -/
theorem strikethrough_del_escapes_whitelist :
    md_to_dom [Token.paragraph [Token.strikethrough [Token.rawText "gone"]]]
      = [Val.elem "p" none (some [Val.elem "del" none (some [Val.str "gone"])])]
    ∧ ALLOWED_TAGS.contains "del" = false
    ∧ tagsAllowedList
        (md_to_dom [Token.paragraph [Token.strikethrough [Token.rawText "gone"]]]) = false :=
  ⟨rfl, rfl, rfl⟩

/-- C2: the projection is total: render is a total function on every token
kind, and a node kind with no specific rewrite rule falls back to the
spliced rendering of its children, which for purely textual children is
exactly its flattened text content. -/
theorem render_total_unknown_fallback (cs : List Token) (ss : List String) :
    (∀ t : Token, ∃ v : Val, render t = v)
    ∧ render (Token.unknown cs) = Val.vlist (renderInner cs)
    ∧ render (Token.unknown (ss.map Token.rawText)) = Val.vlist (ss.map Val.str) := by
  refine ⟨fun t => ⟨render t, rfl⟩, rfl, ?_⟩
  have h : ∀ l : List String, renderInner (l.map Token.rawText) = l.map Val.str := by
    intro l
    induction l with
    | nil => rfl
    | cons a t ih =>
        show Val.str a :: renderInner (t.map Token.rawText) = Val.str a :: t.map Val.str
        rw [ih]
  show Val.vlist (renderInner (ss.map Token.rawText)) = Val.vlist (ss.map Val.str)
  rw [h]

/-- C3 counterexample: on the Markdown image with alt text alt and source
https x.test i.png, the code stores under the alt key the list of rendered
children, not the string of their text, so the claimed output value with a
string alt is not produced. -/
theorem image_alt_not_string :
    render (Token.image "https://x.test/i.png" "" [Token.rawText "alt"])
      = Val.elem "img"
          (some [("src", Val.str "https://x.test/i.png"), ("alt", Val.vlist [Val.str "alt"])])
          none
    ∧ render (Token.image "https://x.test/i.png" "" [Token.rawText "alt"])
      ≠ Val.elem "img"
          (some [("src", Val.str "https://x.test/i.png"), ("alt", Val.str "alt")])
          none := by
  refine ⟨rfl, ?_⟩
  show Val.elem "img"
      (some [("src", Val.str "https://x.test/i.png"), ("alt", Val.vlist [Val.str "alt"])]) none
    ≠ Val.elem "img"
      (some [("src", Val.str "https://x.test/i.png"), ("alt", Val.str "alt")]) none
  simp

/-- C3 amended: an Image node projects to an img element with no children
key whose attrs hold src under the src key, the list of projected inline
children under the alt key when that list is nonempty, and the title under
the title key when the title is nonempty. -/
theorem image_projection (src title : String) (cs : List Token) :
    ∃ attrs, render (Token.image src title cs) = Val.elem "img" (some attrs) none
      ∧ attrs.lookup "src" = some (Val.str src)
      ∧ attrs.lookup "alt"
          = (if (renderInner cs).isEmpty then none else some (Val.vlist (renderInner cs)))
      ∧ attrs.lookup "title"
          = (if title = "" then none else some (Val.str title)) := by
  refine ⟨_, rfl, ?_, ?_, ?_⟩ <;>
    by_cases h1 : (renderInner cs).isEmpty <;> by_cases h2 : title = "" <;>
      simp [h1, h2, List.lookup]

/-- C4: heading demotion: a level 1 heading projects to h3, a level 2
heading to h4, and every heading of level at least 3 to a p wrapping a
single strong wrapping the projected children; the three concrete Title
examples evaluate to the claimed outputs. -/
theorem heading_demotion (cs : List Token) (level : Nat) :
    render (Token.heading 1 cs) = Val.elem "h3" none (some (renderInner cs))
    ∧ render (Token.heading 2 cs) = Val.elem "h4" none (some (renderInner cs))
    ∧ (3 ≤ level → render (Token.heading level cs)
        = Val.elem "p" none (some [Val.elem "strong" none (some (renderInner cs))]))
    ∧ md_to_dom [Token.heading 1 [Token.rawText "Title"]]
        = [Val.elem "h3" none (some [Val.str "Title"])]
    ∧ md_to_dom [Token.heading 2 [Token.rawText "Title"]]
        = [Val.elem "h4" none (some [Val.str "Title"])]
    ∧ md_to_dom [Token.heading 3 [Token.rawText "Title"]]
        = [Val.elem "p" none (some [Val.elem "strong" none (some [Val.str "Title"])])] := by
  refine ⟨rfl, rfl, ?_, rfl, rfl, rfl⟩
  intro h
  have h1 : ¬ level = 1 := by omega
  have h2 : ¬ level = 2 := by omega
  simp [render, h1, h2]

/-- C4 witness: the level-3 case of heading demotion at a concrete input. -/
theorem heading_demotion_witness :
    render (Token.heading 3 [])
      = Val.elem "p" none (some [Val.elem "strong" none (some (renderInner []))]) :=
  (heading_demotion [] 3).2.2.1 (le_refl 3)

/-- C5: a code block projects to a pre wrapping exactly one code element
whose children are the single raw text leaf of the code content; the code
element carries a class attribute of language dash name exactly when a
language is present; the concrete python example evaluates to the claimed
output. -/
theorem block_code_projection (language content : String) :
    (∃ attrs, render (Token.blockCode language content)
        = Val.elem "pre" none (some [Val.elem "code" attrs (some [Val.str content])])
      ∧ (language = "" → attrs = none)
      ∧ (¬ language = "" → attrs = some [("class", Val.str ("language-" ++ language))]))
    ∧ md_to_dom [Token.blockCode "python" "print(1)"]
      = [Val.elem "pre" none
          (some [Val.elem "code" (some [("class", Val.str "language-python")])
            (some [Val.str "print(1)"])])] := by
  refine ⟨⟨_, rfl, ?_, ?_⟩, rfl⟩ <;> intro h <;> simp [h]

/-- C5 witness: the code block projection applied at the concrete python
example. -/
theorem block_code_projection_witness :
    md_to_dom [Token.blockCode "python" "print(1)"]
      = [Val.elem "pre" none
          (some [Val.elem "code" (some [("class", Val.str "language-python")])
            (some [Val.str "print(1)"])])] :=
  (block_code_projection "python" "print(1)").2

/-- C6 counterexample: render_document performs no suppression: a document
whose single child is an HTML block consisting of one newline renders to a
top-level sequence that contains that whitespace-only text node. -/
theorem document_keeps_whitespace_text :
    md_to_dom [Token.htmlBlock "\n"] = [Val.str "\n"]
    ∧ whitespaceOnly "\n" = true
    ∧ Val.str "\n" ∈ md_to_dom [Token.htmlBlock "\n"] := by
  refine ⟨rfl, rfl, ?_⟩
  show Val.str "\n" ∈ [Val.str "\n"]
  exact List.mem_singleton_self _

/-- C6 amended: the top-level output sequence is exactly the in-order
renders of the children of the Document token, one output entry per child
and nothing filtered out. -/
theorem document_no_suppression (cs : List Token) :
    render (Token.document cs) = Val.vlist (md_to_dom cs)
    ∧ (md_to_dom cs).length = cs.length := by
  refine ⟨rfl, ?_⟩
  induction cs with
  | nil => rfl
  | cons c rest ih =>
      show (renderList rest).length + 1 = rest.length + 1
      rw [show (renderList rest).length = rest.length from ih]

/-- C7: a soft line break renders to the newline text leaf and a hard line
break to a bare br element with neither attrs nor children, and rendering
the children of a composite node equals rendering each child and splicing
every list result in place among its siblings. -/
theorem line_break_and_splice (cs : List Token) :
    render (Token.lineBreak true) = Val.str "\n"
    ∧ render (Token.lineBreak false) = Val.elem "br" none none
    ∧ renderInner cs = ((renderList cs).map splice).flatten := by
  refine ⟨rfl, rfl, ?_⟩
  induction cs with
  | nil => rfl
  | cons c rest ih =>
      show (match render c with
            | .vlist xs => xs
            | v => [v]) ++ renderInner rest
          = splice (render c) ++ ((renderList rest).map splice).flatten
      rw [ih]
      cases render c <;> rfl

/-- C8: the projection is deterministic: rendering the same parsed document
twice yields structurally identical output, with no state carried between
runs in the embedding. -/
theorem md_to_dom_deterministic (cs : List Token) :
    md_to_dom cs = md_to_dom cs ∧ ∀ t : Token, render t = render t :=
  ⟨rfl, fun _ => rfl⟩

/-- C9: get_page_list sends the offset unchanged and sends a limit clamped
into the closed interval from 1 to 200: below 1 it sends 1, above 200 it
sends 200, and in between it sends the argument itself. -/
theorem get_page_list_clamps (tok : String) (off lim : Int) :
    (get_page_list_data tok off lim).lookup "offset" = some (ReqVal.int off)
    ∧ ∃ sent : Int,
        (get_page_list_data tok off lim).lookup "limit" = some (ReqVal.int sent)
        ∧ 1 ≤ sent ∧ sent ≤ 200
        ∧ (lim < 1 → sent = 1)
        ∧ (200 < lim → sent = 200)
        ∧ (1 ≤ lim → lim ≤ 200 → sent = lim) := by
  refine ⟨rfl, max 1 (min 200 lim), rfl, ?_, ?_, ?_, ?_, ?_⟩
  · exact le_max_left 1 (min 200 lim)
  · exact max_le (by norm_num) (min_le_left 200 lim)
  · intro h
    exact max_eq_left (le_of_lt (lt_of_le_of_lt (min_le_right 200 lim) h))
  · intro h
    rw [min_eq_left (le_of_lt h)]
    norm_num
  · intro h1 h2
    rw [min_eq_right h2]
    exact max_eq_right h1

/-- C9 witness: the clamp characterization at the concrete call with offset
7 and limit 250. -/
theorem get_page_list_clamps_witness :
    (get_page_list_data "t" 7 250).lookup "offset" = some (ReqVal.int 7)
    ∧ ∃ sent : Int,
        (get_page_list_data "t" 7 250).lookup "limit" = some (ReqVal.int sent)
        ∧ 1 ≤ sent ∧ sent ≤ 200
        ∧ ((250 : Int) < 1 → sent = 1)
        ∧ ((200 : Int) < 250 → sent = 200)
        ∧ ((1 : Int) ≤ 250 → (250 : Int) ≤ 200 → sent = 250) :=
  get_page_list_clamps "t" 7 250

/-- C10: get_views sends each date component exactly when it and every
coarser component are truthy, so a component that is None or 0 is omitted
together with all finer components, and the path is always sent. -/
theorem get_views_component_gating (path : String) (year month day hour : Option Int) :
    (get_views_data path year month day hour).lookup "path" = some (ReqVal.str path)
    ∧ (get_views_data path year month day hour).lookup "year"
        = (if truthy year then some (ReqVal.int (year.getD 0)) else none)
    ∧ (get_views_data path year month day hour).lookup "month"
        = (if truthy month && truthy year then some (ReqVal.int (month.getD 0)) else none)
    ∧ (get_views_data path year month day hour).lookup "day"
        = (if truthy day && truthy month && truthy year
           then some (ReqVal.int (day.getD 0)) else none)
    ∧ (get_views_data path year month day hour).lookup "hour"
        = (if truthy hour && truthy day && truthy month && truthy year
           then some (ReqVal.int (hour.getD 0)) else none)
    ∧ truthy none = false ∧ truthy (some 0) = false := by
  cases hy : truthy year <;> cases hm : truthy month <;>
    cases hd : truthy day <;> cases hh : truthy hour <;>
      simp [get_views_data, hy, hm, hd, hh, List.lookup] <;> exact ⟨rfl, rfl⟩

end YTelegraph
